import Mathlib

/-!
# Equi-width histogram statistics (`src/db/ColumnStats.cpp`)

A shallow embedding of `db::ColumnStats` (constructor, `addValue`,
`estimateCardinality`) and the properties established about it.

Modelling conventions.
* `unsigned`/`size_t` values are natural numbers (`Nat`), assumed not to exceed
  their range, except for the one unsigned subtraction of the source
  (`sizeSub`), which wraps like `size_t` does.
* `int` values are integers (`Int`). The `int` arithmetic of
  `estimateCardinality` (lines 47-48 and the numerators of the fractions) is
  reduced to the 32-bit range by `wrapInt`. The constructor and the bucket
  index keep `max - min + 1` and `v - min` exact; `intRange` and
  `intBucketWidth` give the values that line 17 produces in `int`, which differ
  once `max - min + 1` exceeds `INT_MAX`.
* `double` values are rationals. Each division and multiplication of
  `estimateCardinality` is rounded to binary64 by `roundDouble` (round to
  nearest, ties to even); conversions of integers to `double` are exact
  (magnitudes below `2 ^ 53`), `static_cast<size_t>` of a non-negative
  `double` is the floor, `std::ceil` is the ceiling.
* A C++ exception is the `Except.error` result.
-/

namespace db

/-- The comparison operators of a predicate. The enumeration is declared in a
header; its six enumerators are the ones named by the `switch` of
`estimateCardinality`, and `other code` stands for any other value of the
enumeration type (the one reaching the `default:` label). -/
inductive PredicateOp where
  | EQ
  | NE
  | LT
  | LE
  | GT
  | GE
  | other (code : Int)
  deriving DecidableEq

/-- The two exceptions thrown by the source. -/
inductive Exception where
  | invalid_argument
  | logic_error
  deriving DecidableEq

/-- The data members of `db::ColumnStats`, in the order of the constructor's
initialiser list, followed by `bucketWidth`. The member `bucketWidth` only ever
holds the whole number returned by `std::ceil`; it is kept as a natural number
and converted to `ℚ` wherever the source computes with it in `double`. -/
structure ColumnStats where
  buckets : Nat
  min : Int
  max : Int
  histogram : List Nat
  count : Nat
  bucketWidth : Nat
  deriving DecidableEq

/-- `std::clamp(x, lo, hi)`. -/
def clamp (x lo hi : ℚ) : ℚ :=
  if x < lo then lo else if hi < x then hi else x

/-- Subtraction `a - b` of two `size_t` values (64 bits): exact when `b ≤ a`,
wrapping around `2 ^ 64` otherwise. -/
def sizeSub (a b : Nat) : Nat :=
  if b ≤ a then a - b else a + 2 ^ 64 - b

/-- `std::accumulate(histogram.begin() + first, histogram.begin() + last, 0UL)`. -/
def accumulate (histogram : List Nat) (first last : Nat) : Nat :=
  ((histogram.take last).drop first).sum

/-- The value of an `int` expression whose exact result is `z`: `z` itself
inside `[-2 ^ 31, 2 ^ 31)`, wrapped around `2 ^ 32` outside. -/
def wrapInt (z : Int) : Int :=
  (z + 2 ^ 31) % 2 ^ 32 - 2 ^ 31

/-- The nearest integer to a non-negative rational, ties to the even one. -/
def roundHalfEven (m : ℚ) : Int :=
  if m - ⌊m⌋ < 1 / 2 then ⌊m⌋
  else if 1 / 2 < m - ⌊m⌋ then ⌊m⌋ + 1
  else if ⌊m⌋ % 2 = 0 then ⌊m⌋ else ⌊m⌋ + 1

/-- The binary64 value nearest to `q` (53-bit significand, ties to even,
exponent range not limited): the result of a `double` division or
multiplication whose exact result is `q`. -/
def roundDouble (q : ℚ) : ℚ :=
  if q = 0 then 0
  else
    (if q < 0 then -1 else 1) *
      ((roundHalfEven (|q| / (2 : ℚ) ^ (Int.log 2 |q| - 52)) : Int) : ℚ) *
        (2 : ℚ) ^ (Int.log 2 |q| - 52)

/-- The value of `max - min + 1` at line 17, computed in `int`. -/
def intRange (min max : Int) : Int :=
  wrapInt (wrapInt (max - min) + 1)

/-- The value of `std::ceil(static_cast<double>(max - min + 1) / buckets)` at
line 17 with `max - min + 1` computed in `int`. -/
def intBucketWidth (buckets : Nat) (min max : Int) : Int :=
  ⌈((intRange min max : Int) : ℚ) / (buckets : ℚ)⌉

/-- `ColumnStats::ColumnStats(unsigned buckets, int min, int max)`. The range
`max - min + 1` is exact here; `intBucketWidth` is the width that the `int`
expression of line 17 gives. -/
def ColumnStats.new (buckets : Nat) (min max : Int) : Except Exception ColumnStats :=
  if buckets = 0 ∨ min ≥ max then
    Except.error Exception.invalid_argument
  else
    Except.ok
      { buckets := buckets
        min := min
        max := max
        histogram := List.replicate buckets 0
        count := 0
        bucketWidth := ⌈((max - min + 1 : Int) : ℚ) / (buckets : ℚ)⌉₊ }

/-- The bucket located for `v` (lines 24-25 and 44-45 of the source):
`static_cast<size_t>((v - min) / bucketWidth)` clamped to
`histogram.size() - 1`. Both callers reach it only with `min ≤ v`, where the
quotient is non-negative, and every constructed histogram has at least one
bucket, so `histogram.size() - 1` does not wrap. -/
def ColumnStats.bucketIndex (s : ColumnStats) (v : Int) : Nat :=
  Nat.min ⌊((v - s.min : Int) : ℚ) / (s.bucketWidth : ℚ)⌋₊ (s.histogram.length - 1)

/-- `ColumnStats::addValue(int v)`. -/
def ColumnStats.addValue (s : ColumnStats) (v : Int) : ColumnStats :=
  if v < s.min ∨ v > s.max then
    s
  else
    let bucketIndex := s.bucketIndex v
    { s with
      histogram := s.histogram.set bucketIndex (s.histogram.getD bucketIndex 0 + 1)
      count := s.count + 1 }

/-- `bucketStart` of line 47, for the bucket located for `v`. -/
def ColumnStats.bucketStart (s : ColumnStats) (v : Int) : Int :=
  wrapInt (s.min + wrapInt ((s.bucketIndex v * s.bucketWidth : Nat) : Int))

/-- `bucketEnd` of line 48, for the bucket located for `v`. -/
def ColumnStats.bucketEnd (s : ColumnStats) (v : Int) : Int :=
  wrapInt (wrapInt (s.bucketStart v + wrapInt (s.bucketWidth : Int)) - 1)

/-- `ColumnStats::estimateCardinality(PredicateOp op, int v)`. -/
def ColumnStats.estimateCardinality (s : ColumnStats) (op : PredicateOp) (v : Int) :
    Except Exception Nat :=
  if s.count = 0 then
    Except.ok 0
  else if v < s.min then
    Except.ok (if op = PredicateOp.GT ∨ op = PredicateOp.GE then s.count else 0)
  else if v > s.max then
    Except.ok (if op = PredicateOp.LT ∨ op = PredicateOp.LE then s.count else 0)
  else
    let bucketIndex := s.bucketIndex v
    let bucketHeight : ℚ := (s.histogram.getD bucketIndex 0 : ℚ)
    let bucketStart : Int := s.bucketStart v
    let bucketEnd : Int := s.bucketEnd v
    match op with
    | PredicateOp.EQ =>
      if bucketHeight = 0 then
        Except.ok 0
      else
        Except.ok ⌊roundDouble (bucketHeight / (s.bucketWidth : ℚ))⌋₊
    | PredicateOp.NE =>
      if bucketHeight = 0 then
        Except.ok s.count
      else
        Except.ok (sizeSub s.count ⌊roundDouble (bucketHeight / (s.bucketWidth : ℚ))⌋₊)
    | PredicateOp.LT =>
      let fraction : ℚ :=
        if v > bucketStart then
          roundDouble (((wrapInt (v - bucketStart) : Int) : ℚ) / (s.bucketWidth : ℚ))
        else 0
      Except.ok (⌊roundDouble (fraction * bucketHeight)⌋₊ +
        accumulate s.histogram 0 bucketIndex)
    | PredicateOp.LE =>
      let fraction : ℚ :=
        if v ≥ bucketStart then
          roundDouble (((wrapInt (wrapInt (v - bucketStart) + 1) : Int) : ℚ) /
            (s.bucketWidth : ℚ))
        else 0
      Except.ok (⌊roundDouble (fraction * bucketHeight)⌋₊ +
        accumulate s.histogram 0 bucketIndex)
    | PredicateOp.GT =>
      let fraction : ℚ :=
        if v < bucketEnd then
          roundDouble (((wrapInt (bucketEnd - v) : Int) : ℚ) / (s.bucketWidth : ℚ))
        else 0
      Except.ok (⌊roundDouble (fraction * bucketHeight)⌋₊ +
        accumulate s.histogram (bucketIndex + 1) s.histogram.length)
    | PredicateOp.GE =>
      if bucketHeight = 0 then
        Except.ok (accumulate s.histogram bucketIndex s.histogram.length)
      else
        let fraction : ℚ :=
          if v ≤ bucketEnd then
            clamp (roundDouble (((wrapInt (wrapInt (bucketEnd - v) + 1) : Int) : ℚ) /
              (s.bucketWidth : ℚ))) 0 1
          else 0
        Except.ok (⌊roundDouble (fraction * bucketHeight)⌋₊ +
          accumulate s.histogram (bucketIndex + 1) s.histogram.length)
    | PredicateOp.other _ =>
      Except.error Exception.logic_error

/-- A finite sequence of `addValue` calls, first element first. -/
def ColumnStats.addValues (s : ColumnStats) (vs : List Int) : ColumnStats :=
  vs.foldl ColumnStats.addValue s

/-- The sum of all bucket counters. -/
def ColumnStats.bucketSum (s : ColumnStats) : Nat :=
  s.histogram.sum

/-- The index `floor((v - min) / bucketWidth)` of the bucket containing `v`,
before clamping. -/
def ColumnStats.slot (s : ColumnStats) (v : Int) : Nat :=
  (v - s.min).toNat / s.bucketWidth

/-- The position `v - bucketStart` of `v` inside its bucket. -/
def ColumnStats.offset (s : ColumnStats) (v : Int) : Nat :=
  (v - s.min).toNat % s.bucketWidth

/-- The counter of the bucket containing `v`. -/
def ColumnStats.height (s : ColumnStats) (v : Int) : Nat :=
  s.histogram.getD (s.slot v) 0

/-- The histogram `ColumnStats(10, 0, 99)` right after construction. -/
def emptyStats : ColumnStats :=
  { buckets := 10, min := 0, max := 99, histogram := List.replicate 10 0, count := 0,
    bucketWidth := 10 }

/-- The histogram `ColumnStats(10, 0, 99)` after `addValue(5)` three times. -/
def threeFives : ColumnStats :=
  { buckets := 10, min := 0, max := 99, histogram := [3, 0, 0, 0, 0, 0, 0, 0, 0, 0],
    count := 3, bucketWidth := 10 }

/-- The histogram `ColumnStats(10, 0, 99)` after `addValue(5)` three times and
`addValue(55)` twice. -/
def fiveValues : ColumnStats :=
  { buckets := 10, min := 0, max := 99, histogram := [3, 0, 0, 0, 0, 2, 0, 0, 0, 0],
    count := 5, bucketWidth := 10 }

/-- The histogram `ColumnStats(1, 0, 21)` right after construction. -/
def oneBucket : ColumnStats :=
  { buckets := 1, min := 0, max := 21, histogram := [0], count := 0, bucketWidth := 22 }

/-- The histogram `ColumnStats(1, 0, 21)` after `addValue(0)` 22 times. -/
def twentyTwoZeros : ColumnStats :=
  { buckets := 1, min := 0, max := 21, histogram := [22], count := 22, bucketWidth := 22 }

/-- The histogram `ColumnStats(3, 2147483638, 2147483647)` right after
construction. -/
def topRange : ColumnStats :=
  { buckets := 3, min := 2147483638, max := 2147483647, histogram := [0, 0, 0], count := 0,
    bucketWidth := 4 }

/-- The histogram `ColumnStats(3, 2147483638, 2147483647)` after
`addValue(2147483647)` three times. -/
def topThree : ColumnStats :=
  { buckets := 3, min := 2147483638, max := 2147483647, histogram := [0, 0, 3], count := 3,
    bucketWidth := 4 }

/-- No `int` expression of lines 17, 47 and 48 leaves the `int` range: `min`
is an `int`, `max - min + 1` is at most `INT_MAX`, and the last bucket ends at
`INT_MAX` or below. -/
def ColumnStats.Fits (s : ColumnStats) : Prop :=
  -2 ^ 31 ≤ s.min ∧ s.max - s.min + 1 < 2 ^ 31 ∧
    s.min + ((s.buckets * s.bucketWidth : Nat) : Int) ≤ 2 ^ 31

/-- The state invariant established by the constructor: a positive number of
buckets, a non-empty range, one counter per bucket, the bucket width computed
by the constructor, and `count` equal to the sum of the counters. -/
structure ColumnStats.Valid (s : ColumnStats) : Prop where
  buckets_pos : 0 < s.buckets
  min_lt_max : s.min < s.max
  length_eq : s.histogram.length = s.buckets
  width_eq : s.bucketWidth = ⌈((s.max - s.min + 1 : Int) : ℚ) / (s.buckets : ℚ)⌉₊
  count_eq : s.count = s.bucketSum

/-! ## Arithmetic of the `double` expressions -/

theorem ceil_intCast_div (z : Int) (n : Nat) :
    ⌈((z : Int) : ℚ) / (n : ℚ)⌉₊ = (z.toNat + n - 1) / n := by
  rcases Nat.eq_zero_or_pos n with hn | hn
  · subst hn; simp
  have hn' : (0 : ℚ) < n := by exact_mod_cast hn
  apply eq_of_forall_ge_iff
  intro m
  rw [Nat.ceil_le, div_le_iff₀ hn', ← Nat.lt_succ_iff, Nat.div_lt_iff_lt_mul hn]
  have e : (m + 1) * n = m * n + n := by ring
  rw [Nat.succ_eq_add_one, e]
  constructor
  · intro h
    have h1 : z ≤ ((m * n : Nat) : Int) := by exact_mod_cast h
    omega
  · intro h
    have h1 : z ≤ ((m * n : Nat) : Int) := by omega
    exact_mod_cast h1

theorem floor_intCast_div (z : Int) (w : Nat) :
    ⌊((z : Int) : ℚ) / (w : ℚ)⌋₊ = z.toNat / w := by
  rcases le_or_lt 0 z with hz | hz
  · obtain ⟨a, rfl⟩ := Int.eq_ofNat_of_zero_le hz
    simpa using Nat.floor_div_eq_div (α := ℚ) a w
  · have h0 : ((z : Int) : ℚ) / (w : ℚ) ≤ 0 :=
      div_nonpos_of_nonpos_of_nonneg (by exact_mod_cast hz.le) (by positivity)
    rw [Nat.floor_of_nonpos h0, Int.toNat_of_nonpos hz.le, Nat.zero_div]

/-! ## The invariant -/

theorem sum_set_succ (l : List Nat) (i : Nat) (hi : i < l.length) :
    (l.set i (l.getD i 0 + 1)).sum = l.sum + 1 := by
  induction l generalizing i with
  | nil => simp at hi
  | cons a t ih =>
    cases i with
    | zero => simp; omega
    | succ j =>
      have hj : j < t.length := by simpa using hi
      have := ih j hj
      simp only [List.getD_eq_getElem?_getD] at this
      simp [this]; omega

theorem new_ok (n : Nat) (lo hi : Int) (hn : 1 ≤ n) (hlt : lo < hi) :
    ColumnStats.new n lo hi = Except.ok
      { buckets := n, min := lo, max := hi, histogram := List.replicate n 0, count := 0,
        bucketWidth := ((hi - lo + 1).toNat + n - 1) / n } := by
  have h : ¬ (n = 0 ∨ lo ≥ hi) := by omega
  simp only [ColumnStats.new, if_neg h, ceil_intCast_div]

theorem valid_new (n : Nat) (lo hi : Int) (s : ColumnStats)
    (h : ColumnStats.new n lo hi = Except.ok s) : s.Valid := by
  unfold ColumnStats.new at h
  split at h
  · cases h
  · rename_i hc
    cases h
    exact ⟨by simp only; omega, by simp only; omega, by simp, rfl,
      by simp [ColumnStats.bucketSum]⟩

/-- In a valid state the bucket width is positive and `buckets` buckets of
that width cover the whole range. -/
theorem Valid.width_spec (s : ColumnStats) (hs : s.Valid) :
    0 < s.bucketWidth ∧ (s.max - s.min + 1).toNat ≤ s.bucketWidth * s.buckets := by
  have hn : (0 : ℚ) < s.buckets := by exact_mod_cast hs.buckets_pos
  have hlt := hs.min_lt_max
  have hD : (0 : ℚ) < ((s.max - s.min + 1 : Int) : ℚ) := by
    have : (0 : Int) < s.max - s.min + 1 := by omega
    exact_mod_cast this
  constructor
  · rw [hs.width_eq, Nat.ceil_pos]
    exact div_pos hD hn
  · have h1 := Nat.le_ceil (((s.max - s.min + 1 : Int) : ℚ) / (s.buckets : ℚ))
    rw [← hs.width_eq, div_le_iff₀ hn] at h1
    have h2 : (s.max - s.min + 1 : Int) ≤ ((s.bucketWidth * s.buckets : Nat) : Int) := by
      exact_mod_cast h1
    omega

/-- In a valid state, for `v` inside `[min, max]`, the located bucket is
`(v - min) / bucketWidth` and it is an existing bucket: the clamp of the
source does not change the index. -/
theorem Valid.bucketIndex_eq (s : ColumnStats) (hs : s.Valid) (v : Int)
    (h1 : s.min ≤ v) (h2 : v ≤ s.max) :
    s.bucketIndex v = (v - s.min).toNat / s.bucketWidth ∧
      s.bucketIndex v < s.histogram.length := by
  obtain ⟨hw, hcov⟩ := Valid.width_spec s hs
  have hlen := hs.length_eq
  have hlt : (v - s.min).toNat / s.bucketWidth < s.buckets := by
    rw [Nat.div_lt_iff_lt_mul hw]
    rw [Nat.mul_comm] at hcov
    omega
  have e : s.bucketIndex v =
      Nat.min ((v - s.min).toNat / s.bucketWidth) (s.histogram.length - 1) := by
    simp only [ColumnStats.bucketIndex, floor_intCast_div]
  have e2 : Nat.min ((v - s.min).toNat / s.bucketWidth) (s.histogram.length - 1) =
      (v - s.min).toNat / s.bucketWidth := Nat.min_eq_left (by omega)
  rw [e, e2]
  exact ⟨rfl, by omega⟩

theorem valid_addValue (s : ColumnStats) (hs : s.Valid) (v : Int) : (s.addValue v).Valid := by
  unfold ColumnStats.addValue
  split
  · exact hs
  · rename_i hc
    have hin := (Valid.bucketIndex_eq s hs v (by omega) (by omega)).2
    refine ⟨hs.buckets_pos, hs.min_lt_max, ?_, hs.width_eq, ?_⟩
    · simpa using hs.length_eq
    · have := hs.count_eq
      simp only [ColumnStats.bucketSum] at this ⊢
      rw [sum_set_succ _ _ hin, this]

theorem valid_addValues (s : ColumnStats) (hs : s.Valid) (vs : List Int) :
    (s.addValues vs).Valid := by
  induction vs generalizing s with
  | nil => exact hs
  | cons v t ih => exact ih (s.addValue v) (valid_addValue s hs v)

/-! ## Rounding to `double` and wrapping to `int` -/

theorem roundDouble_zero : roundDouble 0 = 0 := by
  simp [roundDouble]

theorem roundHalfEven_eq (x : ℚ) (m : Int) (h : |x - (m : ℚ)| < 1 / 2) :
    roundHalfEven x = m := by
  rw [abs_lt] at h
  obtain ⟨h1, h2⟩ := h
  unfold roundHalfEven
  rcases le_or_lt (m : ℚ) x with hx | hx
  · have hf : ⌊x⌋ = m := by
      rw [Int.floor_eq_iff]
      constructor <;> linarith
    rw [hf, if_pos (by linarith)]
  · have hf : ⌊x⌋ = m - 1 := by
      rw [Int.floor_eq_iff]
      push_cast
      constructor <;> linarith
    have h3 : ¬ x - ((m - 1 : Int) : ℚ) < 1 / 2 := by push_cast; linarith
    have h4 : 1 / 2 < x - ((m - 1 : Int) : ℚ) := by push_cast; linarith
    rw [hf, if_neg h3, if_pos h4]
    omega

theorem log_two_eq (q : ℚ) (e : Int) (h1 : (2 : ℚ) ^ e ≤ q) (h2 : q < (2 : ℚ) ^ (e + 1)) :
    Int.log 2 q = e := by
  have hq : 0 < q := lt_of_lt_of_le (by positivity) h1
  have a : e ≤ Int.log 2 q := (Int.zpow_le_iff_le_log (by decide) hq).1 (by exact_mod_cast h1)
  have b : Int.log 2 q < e + 1 :=
    (Int.lt_zpow_iff_log_lt (by decide) hq).1 (by exact_mod_cast h2)
  omega

/-- The rounding of a positive `q` in the binade `[2 ^ e, 2 ^ (e + 1))` whose
scaled value is within one half of the integer `m`. -/
theorem roundDouble_eval (q : ℚ) (e m : Int) (h1 : (2 : ℚ) ^ e ≤ q)
    (h2 : q < (2 : ℚ) ^ (e + 1)) (h3 : |q / (2 : ℚ) ^ (e - 52) - (m : ℚ)| < 1 / 2) :
    roundDouble q = (m : ℚ) * (2 : ℚ) ^ (e - 52) := by
  have hq : 0 < q := lt_of_lt_of_le (by positivity) h1
  have habs : |q| = q := abs_of_pos hq
  unfold roundDouble
  rw [if_neg hq.ne', if_neg (not_lt.2 hq.le), habs, log_two_eq q e h1 h2,
    roundHalfEven_eq _ m h3, one_mul]

theorem roundHalfEven_near (x : ℚ) : |((roundHalfEven x : Int) : ℚ) - x| ≤ 1 / 2 := by
  have h1 := Int.floor_le x
  have h2 := Int.lt_floor_add_one x
  rw [abs_le]
  unfold roundHalfEven
  split_ifs with a b c
  · constructor <;> linarith
  · push_cast; constructor <;> linarith
  · constructor <;> linarith
  · push_cast; constructor <;> linarith

/-- A rounded positive value is within half a unit in the last place of the
exact one. -/
theorem roundDouble_near (q : ℚ) (e : Int) (h1 : (2 : ℚ) ^ e ≤ q)
    (h2 : q < (2 : ℚ) ^ (e + 1)) : |roundDouble q - q| ≤ (2 : ℚ) ^ (e - 53) := by
  have hq : 0 < q := lt_of_lt_of_le (by positivity) h1
  have hu : (0 : ℚ) < (2 : ℚ) ^ (e - 52) := by positivity
  have habs : |q| = q := abs_of_pos hq
  have hr := roundHalfEven_near (q / (2 : ℚ) ^ (e - 52))
  have e1 : roundDouble q =
      ((roundHalfEven (q / (2 : ℚ) ^ (e - 52)) : Int) : ℚ) * (2 : ℚ) ^ (e - 52) := by
    unfold roundDouble
    rw [if_neg hq.ne', if_neg (not_lt.2 hq.le), habs, log_two_eq q e h1 h2, one_mul]
  have e2 : roundDouble q - q =
      (((roundHalfEven (q / (2 : ℚ) ^ (e - 52)) : Int) : ℚ) - q / (2 : ℚ) ^ (e - 52)) *
        (2 : ℚ) ^ (e - 52) := by
    rw [e1, sub_mul, div_mul_cancel₀ _ hu.ne']
  have e3 : (2 : ℚ) ^ (e - 53) = 1 / 2 * (2 : ℚ) ^ (e - 52) := by
    rw [show e - 52 = (e - 53) + 1 by ring, zpow_add_one₀ (by norm_num : (2 : ℚ) ≠ 0)]
    ring
  rw [e2, abs_mul, abs_of_pos hu, e3]
  exact mul_le_mul_of_nonneg_right hr hu.le

/-- The truncation of a rounded positive value whose exact value keeps half a
unit in the last place away from the integers `k` and `k + 1`. -/
theorem floor_roundDouble (q : ℚ) (e : Int) (k : Nat) (h1 : (2 : ℚ) ^ e ≤ q)
    (h2 : q < (2 : ℚ) ^ (e + 1)) (hlo : (k : ℚ) ≤ q - (2 : ℚ) ^ (e - 53))
    (hhi : q + (2 : ℚ) ^ (e - 53) < (k : ℚ) + 1) : ⌊roundDouble q⌋₊ = k := by
  have h := abs_le.1 (roundDouble_near q e h1 h2)
  have hk : (0 : ℚ) ≤ (k : ℚ) := by positivity
  rw [Nat.floor_eq_iff (by linarith [h.1])]
  constructor <;> linarith [h.1, h.2]

/-! ## The estimates inside `[min, max]` -/

theorem accumulate_front (l : List Nat) (i : Nat) : accumulate l 0 i = (l.take i).sum := by
  simp [accumulate]

theorem accumulate_back (l : List Nat) (i : Nat) :
    accumulate l i l.length = (l.drop i).sum := by
  simp [accumulate]

/-- Inside `[min, max]` the located bucket is `slot v`, an existing bucket, and
`min + bucketIndex * bucketWidth = v - offset v` with `offset v < bucketWidth`. -/
theorem Valid.index_facts (s : ColumnStats) (hs : s.Valid) (v : Int)
    (h1 : s.min ≤ v) (h2 : v ≤ s.max) :
    s.bucketIndex v = s.slot v ∧ s.slot v < s.histogram.length ∧
      s.offset v < s.bucketWidth ∧
      s.min + ((s.bucketIndex v * s.bucketWidth : Nat) : Int) = v - (s.offset v : Int) := by
  obtain ⟨e, hlt⟩ := Valid.bucketIndex_eq s hs v h1 h2
  obtain ⟨hw, -⟩ := Valid.width_spec s hs
  refine ⟨e, ?_, Nat.mod_lt _ hw, ?_⟩
  · rw [ColumnStats.slot, ← e]; exact hlt
  · rw [e, ColumnStats.offset]
    have := Nat.div_add_mod (v - s.min).toNat s.bucketWidth
    rw [Nat.mul_comm] at this
    omega

/-- Without `int` overflow the bucket bounds of lines 47-48 are
`bucketStart = v - offset v` and `bucketEnd = v - offset v + bucketWidth - 1`. -/
theorem Valid.bucket_bounds (s : ColumnStats) (hs : s.Valid) (hf : s.Fits) (v : Int)
    (h1 : s.min ≤ v) (h2 : v ≤ s.max) :
    s.bucketStart v = v - (s.offset v : Int) ∧
      s.bucketEnd v = v - (s.offset v : Int) + (s.bucketWidth : Int) - 1 := by
  obtain ⟨e, hlt, ho, hb⟩ := Valid.index_facts s hs v h1 h2
  obtain ⟨f1, f2, f3⟩ := hf
  have hl := hs.length_eq
  have hle : ((s.bucketIndex v * s.bucketWidth : Nat) : Int) + (s.bucketWidth : Int) ≤
      ((s.buckets * s.bucketWidth : Nat) : Int) := by
    have h3 : s.bucketIndex v + 1 ≤ s.buckets := by omega
    have h4 := Nat.mul_le_mul_right s.bucketWidth h3
    rw [Nat.add_mul, Nat.one_mul] at h4
    exact_mod_cast h4
  have hidx : (0 : Int) ≤ ((s.bucketIndex v * s.bucketWidth : Nat) : Int) := Int.ofNat_nonneg _
  have e1 : s.bucketStart v = v - (s.offset v : Int) := by
    unfold ColumnStats.bucketStart wrapInt
    omega
  refine ⟨e1, ?_⟩
  unfold ColumnStats.bucketEnd
  rw [e1]
  unfold wrapInt
  omega

theorem Valid.width_le_range (s : ColumnStats) (hs : s.Valid) :
    (s.bucketWidth : Int) ≤ s.max - s.min + 1 := by
  have hn : (1 : ℚ) ≤ s.buckets := by exact_mod_cast hs.buckets_pos
  have hlt := hs.min_lt_max
  have hD : (0 : ℚ) ≤ ((s.max - s.min + 1 : Int) : ℚ) := by
    have : (0 : Int) ≤ s.max - s.min + 1 := by omega
    exact_mod_cast this
  have h1 : ⌈((s.max - s.min + 1 : Int) : ℚ) / (s.buckets : ℚ)⌉₊ ≤ (s.max - s.min + 1).toNat := by
    rw [Nat.ceil_le]
    have h2 : ((s.max - s.min + 1 : Int) : ℚ) / (s.buckets : ℚ) ≤
        ((s.max - s.min + 1 : Int) : ℚ) := div_le_self hD hn
    have h3 : (((s.max - s.min + 1).toNat : Nat) : ℚ) = ((s.max - s.min + 1 : Int) : ℚ) := by
      have : (((s.max - s.min + 1).toNat : Nat) : Int) = s.max - s.min + 1 := by omega
      exact_mod_cast this
    rw [h3]; exact h2
  rw [← hs.width_eq] at h1
  omega

/-- The fraction of a bucket computed by the source: the quotient is taken
when the guard `c` holds, which is when the numerator `z` is positive. -/
theorem fraction_eq (c : Prop) [Decidable c] (z : Int) (k : Nat) (w : ℚ) (hc : c ↔ 0 < z)
    (hz : z = (k : Int)) :
    (if c then roundDouble (((z : Int) : ℚ) / w) else 0) = roundDouble ((k : ℚ) / w) := by
  by_cases h : c
  · rw [if_pos h, hz]; norm_cast
  · have hk : k = 0 := by
      have : ¬ 0 < z := fun h0 => h (hc.2 h0)
      omega
    rw [if_neg h, hk]
    simp [roundDouble_zero]

theorem Valid.estimate_LT (s : ColumnStats) (hs : s.Valid) (hf : s.Fits) (hc : 0 < s.count)
    (v : Int) (h1 : s.min ≤ v) (h2 : v ≤ s.max) :
    s.estimateCardinality PredicateOp.LT v =
      Except.ok (⌊roundDouble (roundDouble ((s.offset v : ℚ) / (s.bucketWidth : ℚ)) *
          (s.height v : ℚ))⌋₊ + (s.histogram.take (s.slot v)).sum) := by
  obtain ⟨e, -, ho, -⟩ := Valid.index_facts s hs v h1 h2
  obtain ⟨hb, -⟩ := Valid.bucket_bounds s hs hf v h1 h2
  have hw := Valid.width_le_range s hs
  obtain ⟨f1, f2, f3⟩ := hf
  have hz : wrapInt (v - (v - (s.offset v : Int))) = (s.offset v : Int) := by
    unfold wrapInt; omega
  simp only [ColumnStats.estimateCardinality, if_neg (Nat.pos_iff_ne_zero.1 hc),
    if_neg (not_lt.2 h1), if_neg (not_lt.2 h2), hb, accumulate_front]
  rw [fraction_eq _ _ (s.offset v) _ (by rw [hz]; omega) hz, e, ColumnStats.height]

theorem Valid.estimate_GT (s : ColumnStats) (hs : s.Valid) (hf : s.Fits) (hc : 0 < s.count)
    (v : Int) (h1 : s.min ≤ v) (h2 : v ≤ s.max) :
    s.estimateCardinality PredicateOp.GT v =
      Except.ok (⌊roundDouble (roundDouble (((s.bucketWidth - 1 - s.offset v : Nat) : ℚ) /
          (s.bucketWidth : ℚ)) * (s.height v : ℚ))⌋₊ +
        (s.histogram.drop (s.slot v + 1)).sum) := by
  obtain ⟨e, -, ho, -⟩ := Valid.index_facts s hs v h1 h2
  obtain ⟨-, hb⟩ := Valid.bucket_bounds s hs hf v h1 h2
  have hw := Valid.width_le_range s hs
  obtain ⟨f1, f2, f3⟩ := hf
  have hz : wrapInt (v - (s.offset v : Int) + (s.bucketWidth : Int) - 1 - v) =
      ((s.bucketWidth - 1 - s.offset v : Nat) : Int) := by
    unfold wrapInt; omega
  simp only [ColumnStats.estimateCardinality, if_neg (Nat.pos_iff_ne_zero.1 hc),
    if_neg (not_lt.2 h1), if_neg (not_lt.2 h2), hb, accumulate_back]
  rw [fraction_eq _ _ (s.bucketWidth - 1 - s.offset v) _ (by rw [hz]; omega) hz, e,
    ColumnStats.height]

theorem Valid.estimate_EQ (s : ColumnStats) (hs : s.Valid) (hc : 0 < s.count) (v : Int)
    (h1 : s.min ≤ v) (h2 : v ≤ s.max) :
    s.estimateCardinality PredicateOp.EQ v =
      Except.ok (if s.height v = 0 then 0
        else ⌊roundDouble ((s.height v : ℚ) / (s.bucketWidth : ℚ))⌋₊) := by
  obtain ⟨e, -, -, -⟩ := Valid.index_facts s hs v h1 h2
  simp only [ColumnStats.estimateCardinality, if_neg (Nat.pos_iff_ne_zero.1 hc),
    if_neg (not_lt.2 h1), if_neg (not_lt.2 h2), e, ColumnStats.height]
  by_cases hh : s.histogram.getD (s.slot v) 0 = 0
  · have : ((s.histogram.getD (s.slot v) 0 : Nat) : ℚ) = 0 := by exact_mod_cast hh
    rw [if_pos this, if_pos hh]
  · have : ¬ ((s.histogram.getD (s.slot v) 0 : Nat) : ℚ) = 0 := by exact_mod_cast hh
    rw [if_neg this, if_neg hh]

theorem Valid.estimate_NE (s : ColumnStats) (hs : s.Valid) (hc : 0 < s.count) (v : Int)
    (h1 : s.min ≤ v) (h2 : v ≤ s.max) :
    s.estimateCardinality PredicateOp.NE v =
      Except.ok (if s.height v = 0 then s.count
        else sizeSub s.count ⌊roundDouble ((s.height v : ℚ) / (s.bucketWidth : ℚ))⌋₊) := by
  obtain ⟨e, -, -, -⟩ := Valid.index_facts s hs v h1 h2
  simp only [ColumnStats.estimateCardinality, if_neg (Nat.pos_iff_ne_zero.1 hc),
    if_neg (not_lt.2 h1), if_neg (not_lt.2 h2), e, ColumnStats.height]
  by_cases hh : s.histogram.getD (s.slot v) 0 = 0
  · have : ((s.histogram.getD (s.slot v) 0 : Nat) : ℚ) = 0 := by exact_mod_cast hh
    rw [if_pos this, if_pos hh]
  · have : ¬ ((s.histogram.getD (s.slot v) 0 : Nat) : ℚ) = 0 := by exact_mod_cast hh
    rw [if_neg this, if_neg hh]

/-! ## The estimates outside `[min, max]` -/

theorem estimate_below (s : ColumnStats) (op : PredicateOp) (v : Int) (h : v < s.min) :
    s.estimateCardinality op v =
      Except.ok (if op = PredicateOp.GT ∨ op = PredicateOp.GE then s.count else 0) := by
  by_cases hc : s.count = 0
  · simp [ColumnStats.estimateCardinality, hc]
  · simp only [ColumnStats.estimateCardinality, if_neg hc, if_pos h]

theorem estimate_above (s : ColumnStats) (op : PredicateOp) (v : Int) (h1 : s.min ≤ v)
    (h : v > s.max) :
    s.estimateCardinality op v =
      Except.ok (if op = PredicateOp.LT ∨ op = PredicateOp.LE then s.count else 0) := by
  by_cases hc : s.count = 0
  · simp [ColumnStats.estimateCardinality, hc]
  · simp only [ColumnStats.estimateCardinality, if_neg hc, if_neg (not_lt.2 h1), if_pos h]

/-! ## Concrete histograms -/

theorem addValue_eq (s : ColumnStats) (v : Int) :
    s.addValue v =
      if v < s.min ∨ v > s.max then s
      else
        { s with
          histogram := s.histogram.set (Nat.min (s.slot v) (s.histogram.length - 1))
            (s.histogram.getD (Nat.min (s.slot v) (s.histogram.length - 1)) 0 + 1)
          count := s.count + 1 } := by
  simp only [ColumnStats.addValue, ColumnStats.bucketIndex, floor_intCast_div, ColumnStats.slot]

theorem new_emptyStats : ColumnStats.new 10 0 99 = Except.ok emptyStats := by
  rw [new_ok 10 0 99 (by decide) (by decide)]
  rfl

theorem emptyStats_valid : emptyStats.Valid :=
  valid_new 10 0 99 emptyStats new_emptyStats

theorem addValues_threeFives : emptyStats.addValues [5, 5, 5] = threeFives := by
  simp only [ColumnStats.addValues, List.foldl_cons, List.foldl_nil, addValue_eq]
  decide

theorem threeFives_valid : threeFives.Valid := by
  rw [← addValues_threeFives]
  exact valid_addValues emptyStats emptyStats_valid _

theorem addValues_fiveValues : emptyStats.addValues [5, 5, 5, 55, 55] = fiveValues := by
  simp only [ColumnStats.addValues, List.foldl_cons, List.foldl_nil, addValue_eq]
  decide

theorem fiveValues_valid : fiveValues.Valid := by
  rw [← addValues_fiveValues]
  exact valid_addValues emptyStats emptyStats_valid _

/-- The clamped index is an existing bucket for every `v`, in or out of range. -/
theorem Valid.bucketIndex_lt (s : ColumnStats) (hs : s.Valid) (v : Int) :
    s.bucketIndex v < s.histogram.length := by
  have hpos : 0 < s.histogram.length := by rw [hs.length_eq]; exact hs.buckets_pos
  have h : s.bucketIndex v ≤ s.histogram.length - 1 := Nat.min_le_right _ _
  omega

theorem getD_set_self (l : List Nat) (i a : Nat) (hi : i < l.length) :
    (l.set i a).getD i 0 = a := by
  simp [List.getD_eq_getElem?_getD, List.getElem?_set, hi]

theorem getD_set_other (l : List Nat) (i j a : Nat) (hij : j ≠ i) :
    (l.set i a).getD j 0 = l.getD j 0 := by
  simp [List.getD_eq_getElem?_getD, List.getElem?_set, Ne.symm hij]

/-- The ceiling of a positive quotient `d / n` is the smallest `w` with
`d ≤ w * n`. -/
theorem ceil_div_smallest (d : Int) (n : Nat) (hd : 0 < d) (hn : 0 < n) :
    ((⌈((d : Int) : ℚ) / (n : ℚ)⌉₊ : Nat) : Int) = ⌈((d : Int) : ℚ) / (n : ℚ)⌉ ∧
      0 < ⌈((d : Int) : ℚ) / (n : ℚ)⌉₊ ∧
      d ≤ ((⌈((d : Int) : ℚ) / (n : ℚ)⌉₊ : Nat) : Int) * n ∧
      (∀ w : Nat, d ≤ (w : Int) * n → ⌈((d : Int) : ℚ) / (n : ℚ)⌉₊ ≤ w) ∧
      (((⌈((d : Int) : ℚ) / (n : ℚ)⌉₊ : Nat) : Int) - 1) * n < d := by
  have hn' : (0 : ℚ) < n := by exact_mod_cast hn
  have hd' : (0 : ℚ) < ((d : Int) : ℚ) := by exact_mod_cast hd
  have hq : (0 : ℚ) < ((d : Int) : ℚ) / (n : ℚ) := div_pos hd' hn'
  have hpos : 0 < ⌈((d : Int) : ℚ) / (n : ℚ)⌉₊ := Nat.ceil_pos.2 hq
  have hmin : ∀ w : Nat, d ≤ (w : Int) * n → ⌈((d : Int) : ℚ) / (n : ℚ)⌉₊ ≤ w := by
    intro w hw
    rw [Nat.ceil_le, div_le_iff₀ hn']
    exact_mod_cast hw
  have hcov : d ≤ ((⌈((d : Int) : ℚ) / (n : ℚ)⌉₊ : Nat) : Int) * n := by
    have h1 := Nat.le_ceil (((d : Int) : ℚ) / (n : ℚ))
    rw [div_le_iff₀ hn'] at h1
    exact_mod_cast h1
  refine ⟨?_, hpos, hcov, hmin, ?_⟩
  · have := Int.ceil_toNat (((d : Int) : ℚ) / (n : ℚ))
    rw [← this, Int.toNat_of_nonneg (Int.ceil_nonneg hq.le)]
  · by_contra hnot
    obtain ⟨m, hm⟩ := Nat.exists_eq_add_of_lt hpos
    have hm' : ⌈((d : Int) : ℚ) / (n : ℚ)⌉₊ = m + 1 := by omega
    have h2 := hmin m (by rw [hm'] at hnot; push_cast at hnot; simpa using not_lt.1 hnot)
    omega

theorem fiveValues_fits : fiveValues.Fits := by
  unfold ColumnStats.Fits
  decide

theorem threeFives_at_five :
    threeFives.height 5 = 3 ∧ threeFives.offset 5 = 5 ∧ threeFives.slot 5 = 0 ∧
      threeFives.bucketWidth = 10 := by
  decide

theorem floor_three_tenths : ⌊roundDouble (((3 : Nat) : ℚ) / ((10 : Nat) : ℚ))⌋₊ = 0 :=
  floor_roundDouble _ (-2) 0 (by norm_num) (by norm_num) (by norm_num) (by norm_num)

theorem floor_nine_tenths_twice :
    ⌊roundDouble (roundDouble (((9 : Nat) : ℚ) / ((10 : Nat) : ℚ)) * ((2 : Nat) : ℚ))⌋₊ = 1 := by
  have hb := abs_le.1 (roundDouble_near (((9 : Nat) : ℚ) / ((10 : Nat) : ℚ)) (-1)
    (by norm_num) (by norm_num))
  norm_num at hb
  obtain ⟨hb1, hb2⟩ := hb
  refine floor_roundDouble _ 0 1 ?_ ?_ ?_ ?_ <;> norm_num <;> linarith

theorem fiveValues_gt_fifty :
    fiveValues.estimateCardinality PredicateOp.GT 50 = Except.ok 1 := by
  have h50 : fiveValues.offset 50 = 0 ∧ fiveValues.slot 50 = 5 ∧ fiveValues.height 50 = 2 ∧
      fiveValues.bucketWidth = 10 := by decide
  rw [Valid.estimate_GT fiveValues fiveValues_valid fiveValues_fits (by decide) 50
    (by decide) (by decide), h50.1, h50.2.1, h50.2.2.1, h50.2.2.2]
  have e : (10 - 1 - 0 : Nat) = 9 := rfl
  rw [e, floor_nine_tenths_twice]
  rfl

/-! ## The estimates at an empty bucket -/

theorem new_oneBucket : ColumnStats.new 1 0 21 = Except.ok oneBucket := by
  rw [new_ok 1 0 21 (by decide) (by decide)]
  rfl

theorem addValues_twentyTwoZeros :
    oneBucket.addValues [0, 0, 0, 0, 0, 0, 0, 0, 0, 0, 0, 0, 0, 0, 0, 0, 0, 0, 0, 0, 0, 0] =
      twentyTwoZeros := by
  simp only [ColumnStats.addValues, List.foldl_cons, List.foldl_nil, addValue_eq]
  decide

theorem twentyTwoZeros_valid : twentyTwoZeros.Valid := by
  rw [← addValues_twentyTwoZeros]
  exact valid_addValues oneBucket (valid_new 1 0 21 oneBucket new_oneBucket) _

theorem twentyTwoZeros_fits : twentyTwoZeros.Fits := by
  unfold ColumnStats.Fits
  decide

theorem floor_fifteen_of_twenty_two :
    ⌊roundDouble (roundDouble (((15 : Nat) : ℚ) / ((22 : Nat) : ℚ)) * ((22 : Nat) : ℚ))⌋₊ =
      14 := by
  have e1 : roundDouble (((15 : Nat) : ℚ) / ((22 : Nat) : ℚ)) =
      6141272219141585 / 9007199254740992 := by
    rw [roundDouble_eval _ (-1) 6141272219141585 (by norm_num) (by norm_num)
      (by rw [abs_lt]; constructor <;> norm_num)]
    norm_num
  have e2 : roundDouble (6141272219141585 / 9007199254740992 * ((22 : Nat) : ℚ)) =
      8444249301319679 / 562949953421312 := by
    rw [roundDouble_eval _ 3 8444249301319679 (by norm_num) (by norm_num)
      (by rw [abs_lt]; constructor <;> norm_num)]
    norm_num
  rw [e1, e2, Nat.floor_eq_iff (by norm_num)]
  constructor <;> norm_num

theorem twentyTwoZeros_lt_fifteen :
    twentyTwoZeros.estimateCardinality PredicateOp.LT 15 = Except.ok 14 := by
  have h : twentyTwoZeros.offset 15 = 15 ∧ twentyTwoZeros.slot 15 = 0 ∧
      twentyTwoZeros.height 15 = 22 ∧ twentyTwoZeros.bucketWidth = 22 := by decide
  rw [Valid.estimate_LT twentyTwoZeros twentyTwoZeros_valid twentyTwoZeros_fits (by decide) 15
    (by decide) (by decide), h.1, h.2.1, h.2.2.1, h.2.2.2, floor_fifteen_of_twenty_two]
  rfl

theorem new_topRange :
    ColumnStats.new 3 2147483638 2147483647 = Except.ok topRange := by
  rw [new_ok 3 2147483638 2147483647 (by decide) (by decide)]
  rfl

theorem topRange_valid : topRange.Valid :=
  valid_new 3 2147483638 2147483647 topRange new_topRange

theorem addValues_topThree :
    topRange.addValues [2147483647, 2147483647, 2147483647] = topThree := by
  simp only [ColumnStats.addValues, List.foldl_cons, List.foldl_nil, addValue_eq]
  decide

theorem topThree_valid : topThree.Valid := by
  rw [← addValues_topThree]
  exact valid_addValues topRange topRange_valid _

/-- The bucket bounds of lines 47-48 for the last bucket of
`ColumnStats(3, 2147483638, 2147483647)`: `bucketStart + bucketWidth` exceeds
`INT_MAX` and `bucketEnd` wraps. -/
theorem topRange_bounds (s : ColumnStats) (hs : s.Valid) (h1 : s.min = 2147483638)
    (h2 : s.max = 2147483647) (h3 : s.bucketWidth = 4) :
    s.bucketIndex 2147483647 = 2 ∧ s.bucketStart 2147483647 = 2147483646 ∧
      s.bucketEnd 2147483647 = -2147483647 := by
  have hi : s.bucketIndex 2147483647 = 2 := by
    rw [(Valid.bucketIndex_eq s hs 2147483647 (by omega) (by omega)).1, h1, h3]
    decide
  have hst : s.bucketStart 2147483647 = 2147483646 := by
    rw [ColumnStats.bucketStart, hi, h1, h3]
    decide
  refine ⟨hi, hst, ?_⟩
  rw [ColumnStats.bucketEnd, hst, h3]
  decide

theorem floor_quarter_thrice :
    ⌊roundDouble (roundDouble (((1 : Int) : ℚ) / ((4 : Nat) : ℚ)) * ((3 : Nat) : ℚ))⌋₊ = 0 := by
  have e1 : roundDouble (((1 : Int) : ℚ) / ((4 : Nat) : ℚ)) = 1 / 4 := by
    rw [roundDouble_eval _ (-2) (2 ^ 52) (by norm_num) (by norm_num) (by norm_num)]
    norm_num
  rw [e1]
  refine floor_roundDouble _ (-1) 0 ?_ ?_ ?_ ?_ <;> norm_num

/-- Where `max - min + 1` fits `int`, the width of line 17 computed in `int` is
the one held by the constructed histogram. -/
theorem intBucketWidth_eq (n : Nat) (lo hi : Int) (hn : 1 ≤ n) (hlt : lo < hi)
    (hfit : hi - lo + 1 < 2 ^ 31) :
    ∃ s, ColumnStats.new n lo hi = Except.ok s ∧
      (s.bucketWidth : Int) = intBucketWidth n lo hi := by
  have h : ¬ (n = 0 ∨ lo ≥ hi) := by omega
  have e : ColumnStats.new n lo hi = Except.ok
      { buckets := n, min := lo, max := hi, histogram := List.replicate n 0, count := 0,
        bucketWidth := ⌈((hi - lo + 1 : Int) : ℚ) / (n : ℚ)⌉₊ } := by
    simp only [ColumnStats.new, if_neg h]
  have hr : intRange lo hi = hi - lo + 1 := by
    unfold intRange wrapInt
    omega
  have hq : (0 : ℚ) ≤ ((hi - lo + 1 : Int) : ℚ) / (n : ℚ) := by
    have : (0 : Int) ≤ hi - lo + 1 := by omega
    exact div_nonneg (by exact_mod_cast this) (by positivity)
  refine ⟨_, e, ?_⟩
  rw [intBucketWidth, hr]
  exact Int.natCast_ceil_eq_ceil hq

theorem intRange_wide : intRange (-2000000000) 2000000000 = -294967295 := by
  decide

theorem intBucketWidth_wide : intBucketWidth 4 (-2000000000) 2000000000 = -73741823 := by
  rw [intBucketWidth, intRange_wide, Int.ceil_eq_iff]
  constructor <;> norm_num

/-! ## Properties of the specification -/

/-- C1: for a valid configuration (`1 ≤ buckets`, `min < max`) the constructor
succeeds, the fresh histogram has `count` equal to the sum of its bucket
counters, and so has the histogram reached after any finite sequence `vs` of
`addValue` calls with arbitrary integers. -/
theorem count_eq_bucketSum (n : Nat) (lo hi : Int) (hn : 1 ≤ n) (hlt : lo < hi)
    (vs : List Int) :
    ∃ s, ColumnStats.new n lo hi = Except.ok s ∧ s.count = s.bucketSum ∧
      (s.addValues vs).count = (s.addValues vs).bucketSum := by
  refine ⟨_, new_ok n lo hi hn hlt, ?_, ?_⟩
  · exact (valid_new n lo hi _ (new_ok n lo hi hn hlt)).count_eq
  · exact (valid_addValues _ (valid_new n lo hi _ (new_ok n lo hi hn hlt)) vs).count_eq

theorem count_eq_bucketSum_witness :
    1 ≤ 4 ∧ (-3 : Int) < 8 ∧
      ∃ s, ColumnStats.new 4 (-3) 8 = Except.ok s ∧ s.count = s.bucketSum ∧
        (s.addValues [8, -3, 20, 0, 8, -4]).count =
          (s.addValues [8, -3, 20, 0, 8, -4]).bucketSum :=
  ⟨by decide, by decide,
    count_eq_bucketSum 4 (-3) 8 (by decide) (by decide) [8, -3, 20, 0, 8, -4]⟩

/-- C6: in any state, `addValue v` with `v < min` or `v > max` returns the
state unchanged: `count`, every bucket counter and all other members. -/
theorem addValue_out_of_range (s : ColumnStats) (v : Int) (h : v < s.min ∨ v > s.max) :
    s.addValue v = s := by
  simp only [ColumnStats.addValue, if_pos h]

theorem addValue_out_of_range_witness :
    ((-1 : Int) < threeFives.min ∨ (-1 : Int) > threeFives.max) ∧
      threeFives.addValue (-1) = threeFives :=
  ⟨by decide, addValue_out_of_range threeFives (-1) (by decide)⟩

/-- C7: the constructor throws `invalid_argument` exactly when `buckets == 0`
or `min >= max`; in every other case it returns a histogram with `buckets`
counters, all of them 0, and `count == 0`. -/
theorem new_error_iff (n : Nat) (lo hi : Int) :
    (ColumnStats.new n lo hi = Except.error Exception.invalid_argument ↔ (n = 0 ∨ lo ≥ hi)) ∧
    (ColumnStats.new n lo hi = Except.error Exception.invalid_argument ∨
      ∃ s, ColumnStats.new n lo hi = Except.ok s ∧ s.buckets = n ∧ s.min = lo ∧ s.max = hi ∧
        s.histogram.length = n ∧ (∀ c ∈ s.histogram, c = 0) ∧ s.count = 0) := by
  by_cases h : n = 0 ∨ lo ≥ hi
  · have e : ColumnStats.new n lo hi = Except.error Exception.invalid_argument := by
      simp only [ColumnStats.new, if_pos h]
    exact ⟨⟨fun _ => h, fun _ => e⟩, Or.inl e⟩
  · have e := new_ok n lo hi (by omega) (by omega)
    refine ⟨⟨fun h1 => ?_, fun h1 => absurd h1 h⟩, Or.inr ⟨_, e, rfl, rfl, rfl, ?_, ?_, rfl⟩⟩
    · rw [e] at h1; cases h1
    · simp
    · intro c hc
      exact List.eq_of_mem_replicate hc

/-- C8: on a histogram with `count == 0`, `estimateCardinality` returns 0 for
each of the six operators and every `v`. -/
theorem estimate_of_count_zero (s : ColumnStats) (hc : s.count = 0) (v : Int) :
    s.estimateCardinality PredicateOp.EQ v = Except.ok 0 ∧
    s.estimateCardinality PredicateOp.NE v = Except.ok 0 ∧
    s.estimateCardinality PredicateOp.LT v = Except.ok 0 ∧
    s.estimateCardinality PredicateOp.LE v = Except.ok 0 ∧
    s.estimateCardinality PredicateOp.GT v = Except.ok 0 ∧
    s.estimateCardinality PredicateOp.GE v = Except.ok 0 := by
  simp only [ColumnStats.estimateCardinality, if_pos hc, and_self]

theorem estimate_of_count_zero_witness :
    emptyStats.count = 0 ∧
    (emptyStats.addValues [-7, 100]).count = 0 ∧
    (emptyStats.estimateCardinality PredicateOp.EQ 42 = Except.ok 0 ∧
    emptyStats.estimateCardinality PredicateOp.NE 42 = Except.ok 0 ∧
    emptyStats.estimateCardinality PredicateOp.LT 42 = Except.ok 0 ∧
    emptyStats.estimateCardinality PredicateOp.LE 42 = Except.ok 0 ∧
    emptyStats.estimateCardinality PredicateOp.GT 42 = Except.ok 0 ∧
    emptyStats.estimateCardinality PredicateOp.GE 42 = Except.ok 0) :=
  ⟨rfl, by decide, estimate_of_count_zero emptyStats rfl 42⟩

/-- C9: in a state with `min < max`, for `v < min` the estimate is `count` for
GT and GE and 0 for EQ, NE, LT and LE; for `v > max` it is `count` for LT and
LE and 0 for EQ, NE, GT and GE. -/
theorem estimate_out_of_range (s : ColumnStats) (hs : s.min < s.max) (v : Int) :
    (v < s.min →
      s.estimateCardinality PredicateOp.GT v = Except.ok s.count ∧
      s.estimateCardinality PredicateOp.GE v = Except.ok s.count ∧
      s.estimateCardinality PredicateOp.EQ v = Except.ok 0 ∧
      s.estimateCardinality PredicateOp.NE v = Except.ok 0 ∧
      s.estimateCardinality PredicateOp.LT v = Except.ok 0 ∧
      s.estimateCardinality PredicateOp.LE v = Except.ok 0) ∧
    (v > s.max →
      s.estimateCardinality PredicateOp.LT v = Except.ok s.count ∧
      s.estimateCardinality PredicateOp.LE v = Except.ok s.count ∧
      s.estimateCardinality PredicateOp.EQ v = Except.ok 0 ∧
      s.estimateCardinality PredicateOp.NE v = Except.ok 0 ∧
      s.estimateCardinality PredicateOp.GT v = Except.ok 0 ∧
      s.estimateCardinality PredicateOp.GE v = Except.ok 0) := by
  constructor
  · intro h
    simp [estimate_below s _ v h]
  · intro h
    simp [estimate_above s _ v (by omega) h]

theorem estimate_out_of_range_witness :
    threeFives.min < threeFives.max ∧
    ((-10 : Int) < threeFives.min ∧
      threeFives.estimateCardinality PredicateOp.GT (-10) = Except.ok 3 ∧
      threeFives.estimateCardinality PredicateOp.GE (-10) = Except.ok 3 ∧
      threeFives.estimateCardinality PredicateOp.EQ (-10) = Except.ok 0 ∧
      threeFives.estimateCardinality PredicateOp.NE (-10) = Except.ok 0 ∧
      threeFives.estimateCardinality PredicateOp.LT (-10) = Except.ok 0 ∧
      threeFives.estimateCardinality PredicateOp.LE (-10) = Except.ok 0) ∧
    ((200 : Int) > threeFives.max ∧
      threeFives.estimateCardinality PredicateOp.LT 200 = Except.ok 3 ∧
      threeFives.estimateCardinality PredicateOp.LE 200 = Except.ok 3 ∧
      threeFives.estimateCardinality PredicateOp.EQ 200 = Except.ok 0 ∧
      threeFives.estimateCardinality PredicateOp.NE 200 = Except.ok 0 ∧
      threeFives.estimateCardinality PredicateOp.GT 200 = Except.ok 0 ∧
      threeFives.estimateCardinality PredicateOp.GE 200 = Except.ok 0) :=
  ⟨by decide,
    ⟨by decide, (estimate_out_of_range threeFives (by decide) (-10)).1 (by decide)⟩,
    ⟨by decide, (estimate_out_of_range threeFives (by decide) 200).2 (by decide)⟩⟩

/-- C14: in a valid state, `addValue v` with `min ≤ v ≤ max` adds exactly 1 to
the counter of bucket `floor((v - min) / bucketWidth)` clamped to
`buckets - 1`, adds exactly 1 to `count`, and leaves every other counter, the
number of counters, `buckets`, `min`, `max` and `bucketWidth` unchanged. -/
theorem addValue_in_range (s : ColumnStats) (hs : s.Valid) (v : Int)
    (h1 : s.min ≤ v) (h2 : v ≤ s.max) :
    s.bucketIndex v =
        Nat.min ⌊((v - s.min : Int) : ℚ) / (s.bucketWidth : ℚ)⌋₊ (s.buckets - 1) ∧
      (s.addValue v).histogram.getD (s.bucketIndex v) 0 =
        s.histogram.getD (s.bucketIndex v) 0 + 1 ∧
      (∀ j, j ≠ s.bucketIndex v →
        (s.addValue v).histogram.getD j 0 = s.histogram.getD j 0) ∧
      (s.addValue v).histogram.length = s.histogram.length ∧
      (s.addValue v).count = s.count + 1 ∧
      (s.addValue v).buckets = s.buckets ∧ (s.addValue v).min = s.min ∧
      (s.addValue v).max = s.max ∧ (s.addValue v).bucketWidth = s.bucketWidth := by
  have hin := Valid.bucketIndex_lt s hs v
  have hc : ¬ (v < s.min ∨ v > s.max) := by omega
  have e : s.addValue v =
      { s with
        histogram := s.histogram.set (s.bucketIndex v)
          (s.histogram.getD (s.bucketIndex v) 0 + 1)
        count := s.count + 1 } := by
    simp only [ColumnStats.addValue, if_neg hc]
  rw [e]
  refine ⟨?_, getD_set_self _ _ _ hin, fun j hj => getD_set_other _ _ _ _ hj,
    List.length_set _ _ _, rfl, rfl, rfl, rfl, rfl⟩
  rw [ColumnStats.bucketIndex, hs.length_eq]

theorem addValue_in_range_witness :
    threeFives.Valid ∧ threeFives.min ≤ 55 ∧ (55 : Int) ≤ threeFives.max ∧
    (threeFives.bucketIndex 55 =
        Nat.min ⌊(((55 : Int) - threeFives.min : Int) : ℚ) / (threeFives.bucketWidth : ℚ)⌋₊
          (threeFives.buckets - 1) ∧
      (threeFives.addValue 55).histogram.getD (threeFives.bucketIndex 55) 0 =
        threeFives.histogram.getD (threeFives.bucketIndex 55) 0 + 1 ∧
      (∀ j, j ≠ threeFives.bucketIndex 55 →
        (threeFives.addValue 55).histogram.getD j 0 = threeFives.histogram.getD j 0) ∧
      (threeFives.addValue 55).histogram.length = threeFives.histogram.length ∧
      (threeFives.addValue 55).count = threeFives.count + 1 ∧
      (threeFives.addValue 55).buckets = threeFives.buckets ∧
      (threeFives.addValue 55).min = threeFives.min ∧
      (threeFives.addValue 55).max = threeFives.max ∧
      (threeFives.addValue 55).bucketWidth = threeFives.bucketWidth) :=
  ⟨threeFives_valid, by decide, by decide,
    addValue_in_range threeFives threeFives_valid 55 (by decide) (by decide)⟩

/-- C15: for a valid configuration the `bucketWidth` computed by the
constructor is `ceil((max - min + 1) / buckets)`; it is positive,
`bucketWidth * buckets` covers `max - min + 1`, no smaller width does, and
`(bucketWidth - 1) * buckets` does not. -/
theorem bucketWidth_smallest_cover (n : Nat) (lo hi : Int) (hn : 1 ≤ n) (hlt : lo < hi) :
    ∃ s, ColumnStats.new n lo hi = Except.ok s ∧
      (s.bucketWidth : Int) = ⌈((hi - lo + 1 : Int) : ℚ) / (n : ℚ)⌉ ∧
      0 < s.bucketWidth ∧
      hi - lo + 1 ≤ (s.bucketWidth : Int) * n ∧
      (∀ w : Nat, hi - lo + 1 ≤ (w : Int) * n → s.bucketWidth ≤ w) ∧
      ((s.bucketWidth : Int) - 1) * n < hi - lo + 1 := by
  have h : ¬ (n = 0 ∨ lo ≥ hi) := by omega
  have e : ColumnStats.new n lo hi = Except.ok
      { buckets := n, min := lo, max := hi, histogram := List.replicate n 0, count := 0,
        bucketWidth := ⌈((hi - lo + 1 : Int) : ℚ) / (n : ℚ)⌉₊ } := by
    simp only [ColumnStats.new, if_neg h]
  exact ⟨_, e, ceil_div_smallest (hi - lo + 1) n (by omega) (by omega)⟩

theorem bucketWidth_smallest_cover_witness :
    1 ≤ 3 ∧ (0 : Int) < 9 ∧
    ∃ s, ColumnStats.new 3 0 9 = Except.ok s ∧
      (s.bucketWidth : Int) = ⌈(((9 : Int) - 0 + 1 : Int) : ℚ) / ((3 : Nat) : ℚ)⌉ ∧
      0 < s.bucketWidth ∧
      (9 : Int) - 0 + 1 ≤ (s.bucketWidth : Int) * (3 : Nat) ∧
      (∀ w : Nat, (9 : Int) - 0 + 1 ≤ (w : Int) * (3 : Nat) → s.bucketWidth ≤ w) ∧
      ((s.bucketWidth : Int) - 1) * (3 : Nat) < (9 : Int) - 0 + 1 :=
  ⟨by decide, by decide, bucketWidth_smallest_cover 3 0 9 (by decide) (by decide)⟩

/-- C10: an operator outside the six enumerators reaches the `default:` label
only when the histogram is non-empty and `min ≤ v ≤ max`. On the empty
histogram, and on a non-empty one for `v < min` or `v > max`, the call returns
0 instead of throwing `logic_error`. -/
theorem estimate_other_returns :
    (∃ s, ColumnStats.new 10 0 99 = Except.ok s ∧
      s.estimateCardinality (PredicateOp.other 6) 5 = Except.ok 0) ∧
    (∃ s, ColumnStats.new 10 0 99 = Except.ok s ∧
      (s.addValues [5, 5, 5]).estimateCardinality (PredicateOp.other 6) (-1) = Except.ok 0 ∧
      (s.addValues [5, 5, 5]).estimateCardinality (PredicateOp.other 6) 100 = Except.ok 0 ∧
      (s.addValues [5, 5, 5]).estimateCardinality (PredicateOp.other 6) 5 =
        Except.error Exception.logic_error) := by
  refine ⟨⟨_, new_emptyStats, ?_⟩, ⟨_, new_emptyStats, ?_⟩⟩
  · simp [ColumnStats.estimateCardinality, emptyStats]
  · rw [addValues_threeFives]
    refine ⟨?_, ?_, ?_⟩
    · rw [estimate_below threeFives _ (-1) (by decide)]; rfl
    · rw [estimate_above threeFives _ 100 (by decide) (by decide)]; rfl
    · simp [ColumnStats.estimateCardinality, threeFives]

/-- C4: EQ and NE are not complementary outside `[min, max]`. On the histogram
`ColumnStats(10, 0, 99)` holding three values 5, both `estimateCardinality(EQ, -1)`
and `estimateCardinality(NE, -1)` are 0 while `count` is 3 (and the same at
`v = 100`); at `v = 5`, inside the range, they are 0 and 3. -/
theorem eq_ne_out_of_range :
    ∃ s, ColumnStats.new 10 0 99 = Except.ok s ∧ (s.addValues [5, 5, 5]).count = 3 ∧
      (s.addValues [5, 5, 5]).estimateCardinality PredicateOp.EQ (-1) = Except.ok 0 ∧
      (s.addValues [5, 5, 5]).estimateCardinality PredicateOp.NE (-1) = Except.ok 0 ∧
      (s.addValues [5, 5, 5]).estimateCardinality PredicateOp.EQ 100 = Except.ok 0 ∧
      (s.addValues [5, 5, 5]).estimateCardinality PredicateOp.NE 100 = Except.ok 0 ∧
      (s.addValues [5, 5, 5]).estimateCardinality PredicateOp.EQ 5 = Except.ok 0 ∧
      (s.addValues [5, 5, 5]).estimateCardinality PredicateOp.NE 5 = Except.ok 3 := by
  refine ⟨_, new_emptyStats, ?_⟩
  rw [addValues_threeFives]
  refine ⟨rfl, ?_, ?_, ?_, ?_, ?_, ?_⟩
  · rw [estimate_below threeFives _ (-1) (by decide)]; rfl
  · rw [estimate_below threeFives _ (-1) (by decide)]; rfl
  · rw [estimate_above threeFives _ 100 (by decide) (by decide)]; rfl
  · rw [estimate_above threeFives _ 100 (by decide) (by decide)]; rfl
  · rw [Valid.estimate_EQ threeFives threeFives_valid (by decide) 5 (by decide) (by decide),
      threeFives_at_five.1, threeFives_at_five.2.2.2, if_neg (by decide), floor_three_tenths]
  · rw [Valid.estimate_NE threeFives threeFives_valid (by decide) 5 (by decide) (by decide),
      threeFives_at_five.1, threeFives_at_five.2.2.2, if_neg (by decide), floor_three_tenths]
    rfl

/-- C12: for `ColumnStats(10, 0, 99)` followed by `addValue(5)` three times and
`addValue(55)` twice, `bucketWidth` is 10 and the estimates are
`EQ 5 = 0`, `LT 50 = 3`, `LT 0 = 0`, `GE -10 = 5` and `LE 200 = 5`. -/
theorem scenario_estimates :
    ∃ s, ColumnStats.new 10 0 99 = Except.ok s ∧ s.bucketWidth = 10 ∧
      (s.addValues [5, 5, 5, 55, 55]).bucketWidth = 10 ∧
      (s.addValues [5, 5, 5, 55, 55]).estimateCardinality PredicateOp.EQ 5 = Except.ok 0 ∧
      (s.addValues [5, 5, 5, 55, 55]).estimateCardinality PredicateOp.LT 50 = Except.ok 3 ∧
      (s.addValues [5, 5, 5, 55, 55]).estimateCardinality PredicateOp.LT 0 = Except.ok 0 ∧
      (s.addValues [5, 5, 5, 55, 55]).estimateCardinality PredicateOp.GE (-10) = Except.ok 5 ∧
      (s.addValues [5, 5, 5, 55, 55]).estimateCardinality PredicateOp.LE 200 = Except.ok 5 := by
  refine ⟨_, new_emptyStats, rfl, ?_⟩
  rw [addValues_fiveValues]
  have h5 : fiveValues.height 5 = 3 ∧ fiveValues.bucketWidth = 10 := by decide
  have h50 : fiveValues.offset 50 = 0 ∧ fiveValues.slot 50 = 5 := by decide
  have h0 : fiveValues.offset 0 = 0 ∧ fiveValues.slot 0 = 0 := by decide
  refine ⟨rfl, ?_, ?_, ?_, ?_, ?_⟩
  · rw [Valid.estimate_EQ fiveValues fiveValues_valid (by decide) 5 (by decide) (by decide),
      h5.1, h5.2, if_neg (by decide), floor_three_tenths]
  · rw [Valid.estimate_LT fiveValues fiveValues_valid fiveValues_fits (by decide) 50
      (by decide) (by decide), h50.1, h50.2]
    simp only [Nat.cast_zero, zero_div, roundDouble_zero, zero_mul, Nat.floor_zero, zero_add]
    rfl
  · rw [Valid.estimate_LT fiveValues fiveValues_valid fiveValues_fits (by decide) 0
      (by decide) (by decide), h0.1, h0.2]
    simp only [Nat.cast_zero, zero_div, roundDouble_zero, zero_mul, Nat.floor_zero, zero_add]
    rfl
  · rw [estimate_below fiveValues _ (-10) (by decide)]; rfl
  · rw [estimate_above fiveValues _ 200 (by decide) (by decide)]; rfl

/-- C13, as the code behaves: for `ColumnStats(10, 0, 99)` followed by
`addValue(5)` three times and `addValue(55)` twice, `estimateCardinality(GT, 50)`
is 1: the bucket `[50, 59]` of 50 holds both values 55, and the estimate is
`floor((59 - 50) / 10 * 2) = 1` plus the empty buckets after it. -/
theorem scenario_gt_fifty :
    ∃ s, ColumnStats.new 10 0 99 = Except.ok s ∧
      (s.addValues [5, 5, 5, 55, 55]).estimateCardinality PredicateOp.GT 50 = Except.ok 1 := by
  refine ⟨_, new_emptyStats, ?_⟩
  rw [addValues_fiveValues, fiveValues_gt_fifty]

/-- C13 fails as stated: no result `k ≥ 2` is returned by
`estimateCardinality(GT, 50)` on that histogram. -/
theorem scenario_gt_fifty_counterexample :
    ¬ ∃ s k, ColumnStats.new 10 0 99 = Except.ok s ∧
      (s.addValues [5, 5, 5, 55, 55]).estimateCardinality PredicateOp.GT 50 = Except.ok k ∧
      2 ≤ k := by
  rintro ⟨s, k, h0, hk, h2⟩
  rw [new_emptyStats] at h0
  cases h0
  rw [addValues_fiveValues, fiveValues_gt_fifty] at hk
  cases hk
  revert h2
  decide

/-- C16, as the code behaves: on a histogram with `count > 0` reached by
`addValue` calls from a valid construction whose `int` expressions do not
overflow, for `min ≤ v ≤ max` the bucket index is `floor((v - min) / bucketWidth)`,
`bucketStart` is `min + bucketIndex * bucketWidth`, and `estimateCardinality(LT, v)`
is the floor of the `double` product `fl(fl((v - bucketStart) / bucketWidth) *
bucketHeight)`, each operation rounded to `double`, plus the sum of the counters
of the buckets before `bucketIndex`. -/
theorem lt_rounded_formula (n : Nat) (lo hi : Int) (s0 : ColumnStats)
    (h0 : ColumnStats.new n lo hi = Except.ok s0) (vs : List Int) (s : ColumnStats)
    (hs : s0.addValues vs = s) (hf : s.Fits) (hc : 0 < s.count) (v : Int)
    (h1 : s.min ≤ v) (h2 : v ≤ s.max) :
    s.bucketIndex v = ⌊((v - s.min : Int) : ℚ) / (s.bucketWidth : ℚ)⌋₊ ∧
      s.bucketStart v = s.min + ((s.bucketIndex v * s.bucketWidth : Nat) : Int) ∧
      s.estimateCardinality PredicateOp.LT v = Except.ok
        (⌊roundDouble (roundDouble (((v - s.bucketStart v : Int) : ℚ) / (s.bucketWidth : ℚ)) *
            (s.histogram.getD (s.bucketIndex v) 0 : ℚ))⌋₊ +
          (s.histogram.take (s.bucketIndex v)).sum) := by
  have hv : s.Valid := hs ▸ valid_addValues s0 (valid_new n lo hi s0 h0) vs
  obtain ⟨e, -, -, hb⟩ := Valid.index_facts s hv v h1 h2
  obtain ⟨hst, -⟩ := Valid.bucket_bounds s hv hf v h1 h2
  refine ⟨?_, ?_, ?_⟩
  · rw [e, floor_intCast_div, ColumnStats.slot]
  · rw [hst, hb]
  · have e1 : v - (v - (s.offset v : Int)) = ((s.offset v : Nat) : Int) := by omega
    rw [Valid.estimate_LT s hv hf hc v h1 h2, hst, e1, e, Int.cast_natCast, ColumnStats.height]

theorem lt_rounded_formula_witness :
    ColumnStats.new 10 0 99 = Except.ok emptyStats ∧
    emptyStats.addValues [5, 5, 5, 55, 55] = fiveValues ∧ fiveValues.Fits ∧
    0 < fiveValues.count ∧ fiveValues.min ≤ 57 ∧ (57 : Int) ≤ fiveValues.max ∧
    (fiveValues.bucketIndex 57 =
        ⌊(((57 : Int) - fiveValues.min : Int) : ℚ) / (fiveValues.bucketWidth : ℚ)⌋₊ ∧
      fiveValues.bucketStart 57 =
        fiveValues.min + ((fiveValues.bucketIndex 57 * fiveValues.bucketWidth : Nat) : Int) ∧
      fiveValues.estimateCardinality PredicateOp.LT 57 = Except.ok
        (⌊roundDouble (roundDouble ((((57 : Int) - fiveValues.bucketStart 57 : Int) : ℚ) /
              (fiveValues.bucketWidth : ℚ)) *
            (fiveValues.histogram.getD (fiveValues.bucketIndex 57) 0 : ℚ))⌋₊ +
          (fiveValues.histogram.take (fiveValues.bucketIndex 57)).sum)) :=
  ⟨new_emptyStats, addValues_fiveValues, fiveValues_fits, by decide, by decide, by decide,
    lt_rounded_formula 10 0 99 emptyStats new_emptyStats [5, 5, 5, 55, 55] fiveValues
      addValues_fiveValues fiveValues_fits (by decide) 57 (by decide) (by decide)⟩

/-- C16 fails as stated: on `ColumnStats(1, 0, 21)` after `addValue(0)` 22 times,
`estimateCardinality(LT, 15)` is 14 (`15.0 / 22` rounds below `15 / 22` and the
product with 22 stays below 15), while the exact-rational formula of the claim,
`floor((15 - 0) * 22 / 22) + 0`, is 15. -/
theorem lt_formula_counterexample :
    ∃ s, ColumnStats.new 1 0 21 = Except.ok s ∧
      0 < (s.addValues [0, 0, 0, 0, 0, 0, 0, 0, 0, 0, 0, 0, 0, 0, 0, 0, 0, 0, 0, 0, 0, 0]).count ∧ (s.addValues [0, 0, 0, 0, 0, 0, 0, 0, 0, 0, 0, 0, 0, 0, 0, 0, 0, 0, 0, 0, 0, 0]).min ≤ 15 ∧
      15 ≤ (s.addValues [0, 0, 0, 0, 0, 0, 0, 0, 0, 0, 0, 0, 0, 0, 0, 0, 0, 0, 0, 0, 0, 0]).max ∧
      (s.addValues [0, 0, 0, 0, 0, 0, 0, 0, 0, 0, 0, 0, 0, 0, 0, 0, 0, 0, 0, 0, 0, 0]).estimateCardinality PredicateOp.LT 15 = Except.ok 14 ∧
      ⌊((15 - ((s.addValues [0, 0, 0, 0, 0, 0, 0, 0, 0, 0, 0, 0, 0, 0, 0, 0, 0, 0, 0, 0, 0, 0]).min +
            (((s.addValues [0, 0, 0, 0, 0, 0, 0, 0, 0, 0, 0, 0, 0, 0, 0, 0, 0, 0, 0, 0, 0, 0]).bucketIndex 15 * (s.addValues [0, 0, 0, 0, 0, 0, 0, 0, 0, 0, 0, 0, 0, 0, 0, 0, 0, 0, 0, 0, 0, 0]).bucketWidth : Nat) : Int)) :
              Int) : ℚ) *
          ((s.addValues [0, 0, 0, 0, 0, 0, 0, 0, 0, 0, 0, 0, 0, 0, 0, 0, 0, 0, 0, 0, 0, 0]).histogram.getD ((s.addValues [0, 0, 0, 0, 0, 0, 0, 0, 0, 0, 0, 0, 0, 0, 0, 0, 0, 0, 0, 0, 0, 0]).bucketIndex 15) 0 : ℚ) /
            ((s.addValues [0, 0, 0, 0, 0, 0, 0, 0, 0, 0, 0, 0, 0, 0, 0, 0, 0, 0, 0, 0, 0, 0]).bucketWidth : ℚ)⌋₊ +
        ((s.addValues [0, 0, 0, 0, 0, 0, 0, 0, 0, 0, 0, 0, 0, 0, 0, 0, 0, 0, 0, 0, 0, 0]).histogram.take ((s.addValues [0, 0, 0, 0, 0, 0, 0, 0, 0, 0, 0, 0, 0, 0, 0, 0, 0, 0, 0, 0, 0, 0]).bucketIndex 15)).sum = 15 := by
  refine ⟨_, new_oneBucket, ?_⟩
  rw [addValues_twentyTwoZeros]
  have hi : twentyTwoZeros.bucketIndex 15 = 0 := by
    rw [(Valid.bucketIndex_eq twentyTwoZeros twentyTwoZeros_valid 15 (by decide) (by decide)).1]
    decide
  refine ⟨by decide, by decide, by decide, twentyTwoZeros_lt_fifteen, ?_⟩
  rw [hi]
  have e : ((15 - (twentyTwoZeros.min + ((0 * twentyTwoZeros.bucketWidth : Nat) : Int)) : Int) :
      ℚ) * (twentyTwoZeros.histogram.getD 0 0 : ℚ) / (twentyTwoZeros.bucketWidth : ℚ) = 15 := by
    norm_num [twentyTwoZeros]
  rw [e]
  norm_num [twentyTwoZeros]

/-- C20: on `ColumnStats(3, 2147483638, 2147483647)` after `addValue(2147483647)`
three times, `bucketEnd` of line 48 wraps to `-2147483647`, the test
`v <= bucketEnd` of GE fails, and `estimateCardinality(LT, 2147483647)` and
`estimateCardinality(GE, 2147483647)` are both 0 while `count` is 3. -/
theorem complementary_loss_at_int_max :
    ∃ s, ColumnStats.new 3 2147483638 2147483647 = Except.ok s ∧
      (s.addValues [2147483647, 2147483647, 2147483647]).count = 3 ∧
      (s.addValues [2147483647, 2147483647, 2147483647]).bucketEnd 2147483647 = -2147483647 ∧
      (s.addValues [2147483647, 2147483647, 2147483647]).estimateCardinality
        PredicateOp.LT 2147483647 = Except.ok 0 ∧
      (s.addValues [2147483647, 2147483647, 2147483647]).estimateCardinality
        PredicateOp.GE 2147483647 = Except.ok 0 := by
  refine ⟨_, new_topRange, ?_⟩
  rw [addValues_topThree]
  obtain ⟨hi, hst, hen⟩ := topRange_bounds topThree topThree_valid rfl rfl rfl
  have hc : ¬ topThree.count = 0 := by decide
  have h1 : ¬ (2147483647 : Int) < topThree.min := by decide
  have h2 : ¬ (2147483647 : Int) > topThree.max := by decide
  have hh : topThree.histogram.getD 2 0 = 3 := rfl
  have hw : topThree.bucketWidth = 4 := rfl
  refine ⟨rfl, hen, ?_, ?_⟩
  · simp only [ColumnStats.estimateCardinality, if_neg hc, if_neg h1, if_neg h2, hi, hst, hh, hw]
    have e : wrapInt (2147483647 - 2147483646) = 1 := by decide
    rw [if_pos (by decide), e, floor_quarter_thrice]
    rfl
  · simp only [ColumnStats.estimateCardinality, if_neg hc, if_neg h1, if_neg h2, hi, hen, hh, hw]
    have e : ¬ (((3 : Nat) : ℚ) = 0) := by norm_num
    rw [if_neg e, if_neg (by decide)]
    simp only [zero_mul, roundDouble_zero, Nat.floor_zero, zero_add]
    rfl

/-- C18: on `ColumnStats(3, 2147483638, 2147483647)` the value `v = 2147483647`
is inside `[min, max]` and is located in bucket 2 with `bucketStart = 2147483646`,
but `bucketEnd = bucketStart + 4 - 1` of line 48 wraps to `-2147483647`, so
`v <= bucketEnd` does not hold. -/
theorem bucketEnd_wraps :
    ∃ s, ColumnStats.new 3 2147483638 2147483647 = Except.ok s ∧
      s.min ≤ 2147483647 ∧ 2147483647 ≤ s.max ∧ s.bucketIndex 2147483647 = 2 ∧
      s.bucketStart 2147483647 = 2147483646 ∧ s.bucketEnd 2147483647 = -2147483647 ∧
      ¬ (2147483647 ≤ s.bucketEnd 2147483647) := by
  obtain ⟨hi, hst, hen⟩ := topRange_bounds topRange topRange_valid rfl rfl rfl
  refine ⟨_, new_topRange, by decide, by decide, hi, hst, hen, ?_⟩
  rw [hen]
  decide

/-- C11: for `ColumnStats(4, -2000000000, 2000000000)` the `int` expression
`max - min + 1` of line 17 overflows to `-294967295` and the width computed
from it is `-73741823`, not a value `≥ 1`; for `ColumnStats(1, -2147483648,
2147483647)` it is 0, so `estimateCardinality` divides by zero. -/
theorem bucketWidth_not_positive :
    intRange (-2000000000) 2000000000 = -294967295 ∧
      intBucketWidth 4 (-2000000000) 2000000000 = -73741823 ∧
      ¬ (1 ≤ intBucketWidth 4 (-2000000000) 2000000000) ∧
      intBucketWidth 1 (-2147483648) 2147483647 = 0 := by
  refine ⟨intRange_wide, intBucketWidth_wide, ?_, ?_⟩
  · rw [intBucketWidth_wide]; decide
  · have e : intRange (-2147483648) 2147483647 = 0 := by decide
    rw [intBucketWidth, e]
    norm_num

end db
